import Mathlib

/-!
Verification development for the zcli service lifecycle controller.

The repository contains two lifecycle-controller implementations that the
claims reference: `ConcurrentServiceManager` (the CAS-based state machine
with start/stop counters) and `sManager` (the atomic-flag based manager in
`service.go` with its timeout escalator `waitForServiceCompletion`), plus
the `ServiceConfig.Validate` aggregated validation.  Each Go routine that
touches the shared state is embedded as an executable Lean function over an
explicit state record; goroutine side effects that the source performs in
program order are executed in the same order by the embedding, and the
outcomes of user-supplied callbacks (run function, stop function, lifecycle
hooks) are supplied as explicit behaviour parameters.
-/

namespace ZCli

/-- Service state enumeration, mirroring the Go `ServiceState` constants
`StateStopped | StateStarting | StateRunning | StateStopping | StateError`. -/
inductive ServiceState
  | stopped
  | starting
  | running
  | stopping
  | error
  deriving DecidableEq, Repr

/-- Typed errors, mirroring the error values built by the manager via
`ErrServiceAlreadyRunning`, `NewError(ErrServiceStart)...`, etc.  User
callback errors are abstracted as `user n`. -/
inductive ZErr
  | user (n : Nat)
  | alreadyRunning
  | startingInProgress
  | stoppingInProgress
  | invalidStateForStart (st : ServiceState)
  | alreadyStopped
  | stopInProgress
  | beforeStartFailed (cause : ZErr)
  | runFailed (cause : ZErr)
  | startTimeout
  | beforeStopFailed (cause : ZErr)
  | stopRunFailed (cause : ZErr)
  | afterStopFailed (cause : ZErr)
  | restartStopFailed (cause : ZErr)
  | restartStartFailed (cause : ZErr)
  deriving DecidableEq, Repr

/-- Shared mutable state of a `ConcurrentServiceManager` instance: the atomic
state word, the two atomic counters, whether the owned context (created once
in `NewConcurrentServiceManager`) has been cancelled, whether the stop
channel (also created once at construction) has been closed, and the last
recorded error.  The `sync.Once` guards `cancelOnce` and `stopChanOnce` are
represented by the two booleans themselves: running the once-body is
modelled as setting the boolean, and a body guarded by an already-used once
is a no-op. -/
structure ConcurrentServiceManager where
  name : String
  state : ServiceState
  startCount : Nat
  stopCount : Nat
  ctxCancelled : Bool
  stopChanClosed : Bool
  lastError : Option ZErr
  deriving DecidableEq, Repr

/-- Snapshot returned by `GetStats`. -/
structure ServiceStats where
  Name : String
  State : ServiceState
  StartCount : Nat
  StopCount : Nat
  LastError : Option ZErr
  deriving DecidableEq, Repr

/-- Outcome of the user-supplied run function: return `nil`, return an
error, or never return before the start timeout elapses. -/
inductive RunOutcome
  | retOk
  | retErr (e : ZErr)
  | hang
  deriving DecidableEq, Repr

/-- Outcomes of the user-supplied callbacks consumed by one operation: the
four lifecycle hooks, the run function and the runner's stop function
(`none` means the callback returns `nil`; a missing lifecycle handler
behaves like `none` since the guarded block is skipped). -/
structure Behavior where
  beforeStart : Option ZErr
  afterStart : Option ZErr
  run : RunOutcome
  beforeStop : Option ZErr
  stopRes : Option ZErr
  afterStop : Option ZErr
  deriving DecidableEq, Repr

/-- Cleanup actions performed during `ConcurrentServiceManager.Stop`, in the
order the operation performs them. -/
inductive CleanupEv
  | cancelCtx
  | closeChan
  | userStopCb
  | markStopped
  deriving DecidableEq, Repr

/-- Result of one `ConcurrentServiceManager` operation: the returned error
(`none` = `nil`), the post-state, the list of state transitions actually
performed (a `setState`/CAS is recorded only when old and new state differ,
as in `setState`), the cleanup actions in order, whether the run function
was invoked and, if so, whether the context handed to it was already done
at that moment, and the milliseconds slept by the operation. -/
structure OpOut where
  res : Option ZErr
  s : ConcurrentServiceManager
  transitions : List (ServiceState × ServiceState)
  cleanup : List CleanupEv
  runnerCtxDone : Option Bool
  sleptMs : Nat
  deriving DecidableEq, Repr

/-- Error returned by `Start` when the CAS from `Stopped` fails, chosen by
the switch on the observed current state. -/
def startConflictErr (st : ServiceState) : ZErr :=
  match st with
  | ServiceState.running => ZErr.alreadyRunning
  | ServiceState.starting => ZErr.startingInProgress
  | ServiceState.stopping => ZErr.stoppingInProgress
  | _ => ZErr.invalidStateForStart st

/-- Constructor model of `NewConcurrentServiceManager`: the owned context
and the stop channel are created here (not yet cancelled / not yet closed)
and the initial state is `Stopped` with zero counters. -/
def NewConcurrentServiceManager (name : String) : ConcurrentServiceManager :=
  { name := name
    state := ServiceState.stopped
    startCount := 0
    stopCount := 0
    ctxCancelled := false
    stopChanClosed := false
    lastError := none }

/-- Model of `GetState`. -/
def ConcurrentServiceManager.GetState (csm : ConcurrentServiceManager) : ServiceState :=
  csm.state

/-- Model of `IsRunning`: true in `Running` or `Starting`. -/
def ConcurrentServiceManager.IsRunning (csm : ConcurrentServiceManager) : Bool :=
  csm.state = ServiceState.running || csm.state = ServiceState.starting

/-- Model of `IsStopped`. -/
def ConcurrentServiceManager.IsStopped (csm : ConcurrentServiceManager) : Bool :=
  csm.state = ServiceState.stopped

/-- Model of `GetStats`: a snapshot of name, state, counters and last error. -/
def ConcurrentServiceManager.GetStats (csm : ConcurrentServiceManager) : ServiceStats :=
  { Name := csm.name
    State := csm.state
    StartCount := csm.startCount
    StopCount := csm.stopCount
    LastError := csm.lastError }

/-- Sequential model of `ConcurrentServiceManager.Start`: the CAS from
`Stopped` to `Starting`, the start-counter increment, the `BeforeStart`
hook, the worker goroutine's `setState(StateRunning)` announcement, the
`AfterStart` hook, the run function (receiving a context derived from the
owned context via `WithTimeout`), and the select on the error channel are
performed in program order.  A run function that never returns makes the
select take the `startCtx.Done()` branch (start timeout). -/
def ConcurrentServiceManager.Start (csm : ConcurrentServiceManager) (b : Behavior) : OpOut :=
  if csm.state = ServiceState.stopped then
    let s1 : ConcurrentServiceManager :=
      { csm with state := ServiceState.starting, startCount := csm.startCount + 1 }
    let tr0 : List (ServiceState × ServiceState) :=
      [(ServiceState.stopped, ServiceState.starting)]
    match b.beforeStart with
    | some e =>
        { res := some (ZErr.beforeStartFailed e)
          s := { s1 with state := ServiceState.error, lastError := some e }
          transitions := tr0 ++ [(ServiceState.starting, ServiceState.error)]
          cleanup := []
          runnerCtxDone := none
          sleptMs := 0 }
    | none =>
        let s2 : ConcurrentServiceManager := { s1 with state := ServiceState.running }
        let tr1 := tr0 ++ [(ServiceState.starting, ServiceState.running)]
        match b.afterStart with
        | some e =>
            { res := some (ZErr.runFailed e)
              s := { s2 with state := ServiceState.error, lastError := some e }
              transitions := tr1 ++ [(ServiceState.running, ServiceState.error)]
              cleanup := []
              runnerCtxDone := none
              sleptMs := 0 }
        | none =>
            match b.run with
            | RunOutcome.retOk =>
                { res := none
                  s := { s2 with state := ServiceState.stopped }
                  transitions := tr1 ++ [(ServiceState.running, ServiceState.stopped)]
                  cleanup := []
                  runnerCtxDone := some csm.ctxCancelled
                  sleptMs := 0 }
            | RunOutcome.retErr e =>
                { res := some (ZErr.runFailed e)
                  s := { s2 with state := ServiceState.error, lastError := some e }
                  transitions := tr1 ++ [(ServiceState.running, ServiceState.error)]
                  cleanup := []
                  runnerCtxDone := some csm.ctxCancelled
                  sleptMs := 0 }
            | RunOutcome.hang =>
                { res := some ZErr.startTimeout
                  s := { s2 with state := ServiceState.error, lastError := some ZErr.startTimeout }
                  transitions := tr1 ++ [(ServiceState.running, ServiceState.error)]
                  cleanup := []
                  runnerCtxDone := some csm.ctxCancelled
                  sleptMs := 0 }
  else
    { res := some (startConflictErr csm.state)
      s := csm
      transitions := []
      cleanup := []
      runnerCtxDone := none
      sleptMs := 0 }

/-- Sequential model of `ConcurrentServiceManager.Stop`: the switch on the
current state (`Stopped` yields `AlreadyStopped`, `Stopping` yields a
stopping-in-progress error), the CAS to `Stopping`, the stop-counter
increment, the `BeforeStop` hook (errors only logged), then — in the order
of the stop goroutine — the `cancelOnce`-guarded context cancellation, the
`stopChanOnce`-guarded channel close, the runner's `Stop()` callback, the
`AfterStop` hook (errors only logged), and finally `setState(StateStopped)`
on success or `setState(StateError)` when the runner's stop errored. -/
def ConcurrentServiceManager.Stop (csm : ConcurrentServiceManager) (b : Behavior) : OpOut :=
  if csm.state = ServiceState.stopped then
    { res := some ZErr.alreadyStopped
      s := csm
      transitions := []
      cleanup := []
      runnerCtxDone := none
      sleptMs := 0 }
  else if csm.state = ServiceState.stopping then
    { res := some ZErr.stopInProgress
      s := csm
      transitions := []
      cleanup := []
      runnerCtxDone := none
      sleptMs := 0 }
  else
    let tr0 : List (ServiceState × ServiceState) := [(csm.state, ServiceState.stopping)]
    let s1 : ConcurrentServiceManager :=
      { csm with state := ServiceState.stopping, stopCount := csm.stopCount + 1 }
    let s1b : ConcurrentServiceManager :=
      match b.beforeStop with
      | some e => { s1 with lastError := some (ZErr.beforeStopFailed e) }
      | none => s1
    let ev0 : List CleanupEv :=
      (if csm.ctxCancelled then [] else [CleanupEv.cancelCtx]) ++
      (if csm.stopChanClosed then [] else [CleanupEv.closeChan])
    let s2 : ConcurrentServiceManager :=
      { s1b with ctxCancelled := true, stopChanClosed := true }
    let s2b : ConcurrentServiceManager :=
      match b.afterStop with
      | some e => { s2 with lastError := some (ZErr.afterStopFailed e) }
      | none => s2
    match b.stopRes with
    | some e =>
        { res := some (ZErr.stopRunFailed e)
          s := { s2b with state := ServiceState.error, lastError := some e }
          transitions := tr0 ++ [(ServiceState.stopping, ServiceState.error)]
          cleanup := ev0 ++ [CleanupEv.userStopCb]
          runnerCtxDone := none
          sleptMs := 0 }
    | none =>
        { res := none
          s := { s2b with state := ServiceState.stopped }
          transitions := tr0 ++ [(ServiceState.stopping, ServiceState.stopped)]
          cleanup := ev0 ++ [CleanupEv.userStopCb, CleanupEv.markStopped]
          runnerCtxDone := none
          sleptMs := 0 }

/-- Sequential model of `ConcurrentServiceManager.Restart`: if the manager
is not already stopped, call `Stop` and wrap its error; otherwise skip the
stop phase; then sleep 100ms and call `Start`, wrapping its error. -/
def ConcurrentServiceManager.Restart (csm : ConcurrentServiceManager) (b : Behavior) : OpOut :=
  if csm.state = ServiceState.stopped then
    let o := csm.Start b
    { o with res := Option.map ZErr.restartStartFailed o.res, sleptMs := 100 }
  else
    let o1 := csm.Stop b
    match o1.res with
    | some e => { o1 with res := some (ZErr.restartStopFailed e) }
    | none =>
        let o2 := o1.s.Start b
        { res := Option.map ZErr.restartStartFailed o2.res
          s := o2.s
          transitions := o1.transitions ++ o2.transitions
          cleanup := o1.cleanup ++ o2.cleanup
          runnerCtxDone := o2.runnerCtxDone
          sleptMs := 100 }

/-- One operation invoked on a `ConcurrentServiceManager` instance. -/
inductive CsmOp
  | opStart (b : Behavior)
  | opStop (b : Behavior)
  | opRestart (b : Behavior)
  deriving DecidableEq, Repr

/-- Apply one operation, returning the post-state and its cleanup actions. -/
def csmStep (op : CsmOp) (csm : ConcurrentServiceManager) :
    ConcurrentServiceManager × List CleanupEv :=
  match op with
  | CsmOp.opStart b => ((csm.Start b).s, (csm.Start b).cleanup)
  | CsmOp.opStop b => ((csm.Stop b).s, (csm.Stop b).cleanup)
  | CsmOp.opRestart b => ((csm.Restart b).s, (csm.Restart b).cleanup)

/-- Run a sequence of operations on one instance, accumulating all cleanup
actions performed over the whole sequence. -/
def csmRun : List CsmOp → ConcurrentServiceManager →
    ConcurrentServiceManager × List CleanupEv
  | [], csm => (csm, [])
  | op :: l, csm =>
      let r := csmStep op csm
      let r2 := csmRun l r.1
      (r2.1, r.2 ++ r2.2)

/-- Shared flag state of an `sManager` instance (`service.go`): the
`running` and `stopExecuted` atomic booleans and whether the current
`exitChan` is closed. -/
structure sManager where
  running : Bool
  stopExecuted : Bool
  exitChanClosed : Bool
  deriving DecidableEq, Repr

/-- Observable actions of the `sManager` code paths: `userCbs` is an
execution of the registered user stop functions from inside the
flag-guarded `Stop` body, `directCbs` an execution of the same functions
through a direct call (`callStopFunctions` / `executeStopFunctions`)
outside that guard, `closeExit` a close of the exit channel, `clearRunning`
the `running.Store(false)`, `warn` the timeout warning log, and `forceWarn`
the forced-termination warning log. -/
inductive SMEvent
  | userCbs
  | directCbs
  | closeExit
  | clearRunning
  | warn
  | forceWarn
  deriving DecidableEq, Repr

/-- Model of `sManager.Stop`: `stopExecuted.Swap(true)` returns early when
the flag was already set; otherwise the flag is now set, and if `running`
is false the method returns without callbacks; otherwise it runs the user
stop functions, closes the exit channel if it is still open (check under
the mutex), and clears the running flag. -/
def sManager.Stop (sm : sManager) : sManager × List SMEvent :=
  if sm.stopExecuted then (sm, [])
  else
    let s1 : sManager := { sm with stopExecuted := true }
    if s1.running then
      ({ s1 with exitChanClosed := true, running := false },
        [SMEvent.userCbs] ++
          (if s1.exitChanClosed then [] else [SMEvent.closeExit]) ++
          [SMEvent.clearRunning])
    else (s1, [])

/-- Model of `sManager.Start`: reset `stopExecuted`, fail if already
running, otherwise ensure the exit channel is open (re-creating it under
the mutex when the previous cycle closed it) and set `running`.  The
returned boolean is true when the start succeeded. -/
def sManager.Start (sm : sManager) : Bool × sManager :=
  let s0 : sManager := { sm with stopExecuted := false }
  if s0.running then (false, s0)
  else (true, { s0 with exitChanClosed := false, running := true })

/-- Stop-side invocations that can hit an `sManager` during one cycle:
an explicit `Stop` call, the signal-handler path of `setupSignalHandler`
(calls `Stop` when running and the flag is unset, otherwise directly runs
the user stop functions when the flag is set), the escalator's
first-timeout branch of `waitForServiceCompletion` (calls `Stop` with a
warning when the flag is unset, otherwise directly runs the user stop
functions), the escalator's forced-termination step (stores both flags),
and the check-and-close of the exit channel performed when the context is
cancelled. -/
inductive StopInv
  | stopCall
  | sigHandler
  | escalT1
  | forceStop
  | waiterClose
  deriving DecidableEq, Repr

/-- Apply one stop-side invocation, following the corresponding source
path statement by statement. -/
def invApply (i : StopInv) (sm : sManager) : sManager × List SMEvent :=
  match i with
  | StopInv.stopCall => sm.Stop
  | StopInv.sigHandler =>
      if sm.running && !sm.stopExecuted then sm.Stop
      else if sm.stopExecuted then (sm, [SMEvent.directCbs])
      else (sm, [])
  | StopInv.escalT1 =>
      if !sm.stopExecuted then
        let r := sm.Stop
        (r.1, SMEvent.warn :: r.2)
      else (sm, [SMEvent.directCbs])
  | StopInv.forceStop =>
      ({ sm with running := false, stopExecuted := true }, [SMEvent.forceWarn])
  | StopInv.waiterClose =>
      if sm.exitChanClosed then (sm, [])
      else ({ sm with exitChanClosed := true }, [SMEvent.closeExit])

/-- Run a sequence of stop-side invocations, accumulating all events. -/
def runInvs : List StopInv → sManager → sManager × List SMEvent
  | [], sm => (sm, [])
  | i :: l, sm =>
      let r := invApply i sm
      let r2 := runInvs l r.1
      (r2.1, r.2 ++ r2.2)

/-- Total number of user-stop-callback executions in an event list, through
the flag-guarded `Stop` body or through a direct call. -/
def cbRuns (evs : List SMEvent) : Nat :=
  evs.count SMEvent.userCbs + evs.count SMEvent.directCbs

/-- A fresh `sManager` stop cycle: running, flag unset, channel open. -/
def freshCycle : sManager :=
  { running := true, stopExecuted := false, exitChanClosed := false }

/-- Whether an optional completion instant has occurred by time `t`. -/
def doneBy : Option Nat → Nat → Bool
  | some t, d => t ≤ d
  | none, _ => false

/-- Model of `sManager.waitForServiceCompletion`.  `ctxDone` is false when
`runDone` wins the initial select (the method returns at once); otherwise
the context-cancelled branch runs with `sm.mu` locked for its whole
duration (`sm.mu.Lock()` with a deferred unlock), times measured from its
entry: close the exit channel if still open, then wait up to 3000ms for the
worker (`workerDone` is the worker's completion instant, `none` when it
never completes).  On timeout, if `stopExecuted` is unset the method logs a
warning and calls `Stop`: the `Swap` sets the flag, and then — when
`running` is true — `Stop` runs the user stop callbacks and blocks forever
at its own `sm.mu.Lock()`, since the escalator already holds the
non-reentrant mutex; the escalator therefore never reaches the second wait
or the force-mark in that branch (result flag `true` = deadlocked, the
state and events are those at the moment of blocking).  When `running` is
false `Stop` returns before touching the mutex and the escalator proceeds.
If the flag was already set it runs the user stop functions directly (no
mutex).  In the surviving branches it waits up to 2000ms more and at the
full 5000ms force-marks the manager stopped, storing `running := false`
and `stopExecuted := true` with a forced-termination warning.  The result
is (post-state, timed events, deadlocked). -/
def sManager.waitForServiceCompletion (sm : sManager) (ctxDone : Bool)
    (workerDone : Option Nat) : sManager × List (Nat × SMEvent) × Bool :=
  if !ctxDone then (sm, [], false)
  else
    let ev0 : List (Nat × SMEvent) :=
      if sm.exitChanClosed then [] else [(0, SMEvent.closeExit)]
    let s0 : sManager := { sm with exitChanClosed := true }
    if doneBy workerDone 3000 then (s0, ev0, false)
    else
      if !s0.stopExecuted then
        let s1 : sManager := { s0 with stopExecuted := true }
        if s0.running then
          (s1, ev0 ++ [(3000, SMEvent.warn), (3000, SMEvent.userCbs)], true)
        else
          if doneBy workerDone 5000 then (s1, ev0 ++ [(3000, SMEvent.warn)], false)
          else ({ s1 with running := false },
                ev0 ++ [(3000, SMEvent.warn), (5000, SMEvent.forceWarn)], false)
      else
        if doneBy workerDone 5000 then (s0, ev0 ++ [(3000, SMEvent.directCbs)], false)
        else ({ s0 with running := false, stopExecuted := true },
              ev0 ++ [(3000, SMEvent.directCbs), (5000, SMEvent.forceWarn)], false)

/-- Service configuration value object (`ServiceConfig` in the source);
the environment-variable map is embedded as an association list. -/
structure ServiceConfig where
  Name : String
  DisplayName : String
  Description : String
  Dependencies : List String
  EnvVars : List (String × String)
  deriving DecidableEq, Repr

/-- Field-level validation errors collected by `ServiceConfig.Validate`,
one constructor per error message the source can append. -/
inductive ConfigErr
  | nameEmpty
  | nameLen
  | displayEmpty
  | displayLen
  | descLen
  | depEmpty (i : Nat)
  | envKeyEmpty
  | envValEmpty (k : String)
  deriving DecidableEq, Repr

/-- Dependency-entry errors, indexed as in the source's `for i, dep` loop. -/
def depErrs : List String → Nat → List ConfigErr
  | [], _ => []
  | d :: rest, i =>
      (if d = "" then [ConfigErr.depEmpty i] else []) ++ depErrs rest (i + 1)

/-- Environment-variable errors, one check per key and per value. -/
def envErrs : List (String × String) → List ConfigErr
  | [] => []
  | (k, v) :: rest =>
      (if k = "" then [ConfigErr.envKeyEmpty] else []) ++
        (if v = "" then [ConfigErr.envValEmpty k] else []) ++ envErrs rest

/-- Model of `ServiceConfig.Validate`: append an error for every violated
check (the source appends the empty-name error and the length error
independently), then return `none` when no error was collected and the
aggregated `ValidationError` (its error list) otherwise. -/
def ServiceConfig.Validate (sc : ServiceConfig) : Option (List ConfigErr) :=
  let errs : List ConfigErr :=
    (if sc.Name = "" then [ConfigErr.nameEmpty] else []) ++
      (if sc.Name.length < 3 || sc.Name.length > 50 then [ConfigErr.nameLen] else []) ++
      (if sc.DisplayName = "" then [ConfigErr.displayEmpty] else []) ++
      (if sc.DisplayName.length > 100 then [ConfigErr.displayLen] else []) ++
      (if sc.Description.length > 500 then [ConfigErr.descLen] else []) ++
      depErrs sc.Dependencies 0 ++
      envErrs sc.EnvVars
  if errs = [] then none else some errs

/-- Modelled from the spec: the legal transition relation of the
specification — `Stopped→Starting→Running→Stopping→Stopped`, any state to
`Error`, and `Error→Stopped`; nothing else. -/
def specLegal : ServiceState → ServiceState → Bool
  | _, ServiceState.error => true
  | ServiceState.stopped, ServiceState.starting => true
  | ServiceState.starting, ServiceState.running => true
  | ServiceState.running, ServiceState.stopping => true
  | ServiceState.stopping, ServiceState.stopped => true
  | ServiceState.error, ServiceState.stopped => true
  | _, _ => false

/-- Modelled from the spec: the cleanup order the specification asserts for
a successful `Stop` — user callbacks first, then the channel close, then
the context cancellation, then the state is set to `Stopped`. -/
def specStopOrder (evs : List CleanupEv) : Bool :=
  evs = [CleanupEv.userStopCb, CleanupEv.closeChan, CleanupEv.cancelCtx,
    CleanupEv.markStopped]

/-- The transition pairs the `ConcurrentServiceManager` operations actually
perform: Start's CAS, the worker's `Running` announcement, the direct
`Running→Stopped` self-transition on a normal run return, Stop's CAS from
each of `Starting`, `Running` and `Error`, the `Stopping→Stopped`
completion, and the `Error` transitions of the failure paths. -/
def codeTransitions : List (ServiceState × ServiceState) :=
  [(ServiceState.stopped, ServiceState.starting),
   (ServiceState.starting, ServiceState.running),
   (ServiceState.running, ServiceState.stopped),
   (ServiceState.starting, ServiceState.stopping),
   (ServiceState.running, ServiceState.stopping),
   (ServiceState.error, ServiceState.stopping),
   (ServiceState.stopping, ServiceState.stopped),
   (ServiceState.starting, ServiceState.error),
   (ServiceState.running, ServiceState.error),
   (ServiceState.stopping, ServiceState.error)]

/-- Behaviour where every callback succeeds and the run function returns
`nil`. -/
def okB : Behavior :=
  { beforeStart := none, afterStart := none, run := RunOutcome.retOk,
    beforeStop := none, stopRes := none, afterStop := none }

/-- Behaviour where the run function returns an error. -/
def errB : Behavior :=
  { beforeStart := none, afterStart := none, run := RunOutcome.retErr (ZErr.user 0),
    beforeStop := none, stopRes := none, afterStop := none }

/-- C5: `Start` on a controller whose state is not `Stopped` returns the
typed conflict error chosen by the observed state (`AlreadyRunning` for
`Running`, starting-in-progress for `Starting`, stopping-in-progress for
`Stopping`, the generic invalid-state error otherwise) and leaves the whole
manager unchanged without invoking the runner; and `Stop` on a controller
whose state is already `Stopped` returns `AlreadyStopped` and changes
nothing. -/
theorem start_stop_state_preconditions (csm : ConcurrentServiceManager) (b : Behavior) :
    (csm.state = ServiceState.running →
      csm.Start b = ⟨some ZErr.alreadyRunning, csm, [], [], none, 0⟩) ∧
    (csm.state = ServiceState.starting →
      csm.Start b = ⟨some ZErr.startingInProgress, csm, [], [], none, 0⟩) ∧
    (csm.state = ServiceState.stopping →
      csm.Start b = ⟨some ZErr.stoppingInProgress, csm, [], [], none, 0⟩) ∧
    (csm.state = ServiceState.error →
      csm.Start b = ⟨some (ZErr.invalidStateForStart ServiceState.error), csm, [], [], none, 0⟩) ∧
    (csm.state = ServiceState.stopped →
      csm.Stop b = ⟨some ZErr.alreadyStopped, csm, [], [], none, 0⟩) := by
  refine ⟨?_, ?_, ?_, ?_, ?_⟩ <;> intro h <;>
    simp [ConcurrentServiceManager.Start, ConcurrentServiceManager.Stop, startConflictErr, h]

/-- Witness for `start_stop_state_preconditions` at a concrete manager in
state `Running`. -/
theorem start_stop_state_preconditions_witness :
    (ConcurrentServiceManager.mk "w" ServiceState.running 1 0 false false none).Start okB =
      ⟨some ZErr.alreadyRunning,
       ConcurrentServiceManager.mk "w" ServiceState.running 1 0 false false none,
       [], [], none, 0⟩ :=
  (start_stop_state_preconditions
    (ConcurrentServiceManager.mk "w" ServiceState.running 1 0 false false none) okB).1 rfl

/-- C7: when the run function returns normally (no error, every start hook
succeeding) on a fresh controller whose owned context has not been
cancelled, `Start` returns `nil`, the controller self-transitions to
`Stopped`, and the stats show one start and zero stops. -/
theorem normal_return_self_stops (nm : String) (b : Behavior)
    (h1 : b.beforeStart = none) (h2 : b.afterStart = none)
    (h3 : b.run = RunOutcome.retOk) :
    ((NewConcurrentServiceManager nm).Start b).res = none ∧
    ((NewConcurrentServiceManager nm).Start b).s.GetState = ServiceState.stopped ∧
    ((NewConcurrentServiceManager nm).Start b).s.GetStats.StartCount = 1 ∧
    ((NewConcurrentServiceManager nm).Start b).s.GetStats.StopCount = 0 := by
  simp [NewConcurrentServiceManager, ConcurrentServiceManager.Start, h1, h2, h3,
    ConcurrentServiceManager.GetState, ConcurrentServiceManager.GetStats]

/-- Witness for `normal_return_self_stops` with the all-succeeding
behaviour. -/
theorem normal_return_self_stops_witness :
    ((NewConcurrentServiceManager "svc").Start okB).res = none ∧
    ((NewConcurrentServiceManager "svc").Start okB).s.GetState = ServiceState.stopped ∧
    ((NewConcurrentServiceManager "svc").Start okB).s.GetStats.StartCount = 1 ∧
    ((NewConcurrentServiceManager "svc").Start okB).s.GetStats.StopCount = 0 :=
  normal_return_self_stops "svc" okB rfl rfl rfl

/-- C8: `Restart` on a stopped controller skips the stop phase and yields
exactly one additional start-count increment and no stop-count increment;
on a running controller whose stop callback succeeds it yields exactly one
stop-count and one start-count increment; in both cases the settle sleep of
100ms happens between the phases; a failing `Stop` aborts the restart with
its error wrapped, and a failing `Start` is propagated wrapped. -/
theorem restart_counts (csm : ConcurrentServiceManager) (b : Behavior) :
    (csm.state = ServiceState.stopped →
      (csm.Restart b).s.startCount = csm.startCount + 1 ∧
      (csm.Restart b).s.stopCount = csm.stopCount ∧
      (csm.Restart b).sleptMs = 100) ∧
    (csm.state = ServiceState.running → b.stopRes = none →
      (csm.Restart b).s.startCount = csm.startCount + 1 ∧
      (csm.Restart b).s.stopCount = csm.stopCount + 1 ∧
      (csm.Restart b).sleptMs = 100) ∧
    (∀ e, csm.state ≠ ServiceState.stopped → (csm.Stop b).res = some e →
      (csm.Restart b).res = some (ZErr.restartStopFailed e)) ∧
    (∀ e, csm.state = ServiceState.stopped → (csm.Start b).res = some e →
      (csm.Restart b).res = some (ZErr.restartStartFailed e)) := by
  obtain ⟨bs, ba, br, bb, bsr, baf⟩ := b
  refine ⟨?_, ?_, ?_, ?_⟩
  · intro h
    cases bs <;> cases ba <;> cases br <;>
      simp [ConcurrentServiceManager.Restart, ConcurrentServiceManager.Start, h]
  · intro h hs
    subst hs
    cases bs <;> cases ba <;> cases br <;> cases bb <;> cases baf <;>
      simp [ConcurrentServiceManager.Restart, ConcurrentServiceManager.Start,
        ConcurrentServiceManager.Stop, h]
  · intro e h he
    simp only [ConcurrentServiceManager.Restart, if_neg h, he]
  · intro e h he
    simp [ConcurrentServiceManager.Restart, if_pos h, he]

/-- Witness for `restart_counts` at a running controller with a succeeding
stop callback. -/
theorem restart_counts_witness :
    ((ConcurrentServiceManager.mk "w" ServiceState.running 1 0 false false none).Restart okB).s.startCount = 2 ∧
    ((ConcurrentServiceManager.mk "w" ServiceState.running 1 0 false false none).Restart okB).s.stopCount = 1 ∧
    ((ConcurrentServiceManager.mk "w" ServiceState.running 1 0 false false none).Restart okB).sleptMs = 100 :=
  (restart_counts
    (ConcurrentServiceManager.mk "w" ServiceState.running 1 0 false false none) okB).2.1 rfl rfl

/-- Every transition performed by `Start` is in the code's transition
relation. -/
theorem start_transitions_sub (csm : ConcurrentServiceManager) (b : Behavior) :
    ∀ p ∈ (csm.Start b).transitions, p ∈ codeTransitions := by
  obtain ⟨bs, ba, br, bb, bsr, baf⟩ := b
  by_cases h : csm.state = ServiceState.stopped
  · cases bs <;> cases ba <;> cases br <;>
      simp [ConcurrentServiceManager.Start, h, codeTransitions]
  · simp [ConcurrentServiceManager.Start, h]

/-- Every transition performed by `Stop` is in the code's transition
relation. -/
theorem stop_transitions_sub (csm : ConcurrentServiceManager) (b : Behavior) :
    ∀ p ∈ (csm.Stop b).transitions, p ∈ codeTransitions := by
  obtain ⟨bs, ba, br, bb, bsr, baf⟩ := b
  cases hcs : csm.state <;> cases bb <;> cases bsr <;> cases baf <;>
    simp [ConcurrentServiceManager.Stop, hcs, codeTransitions]

/-- The transitions of `Restart` decompose into those of its phases. -/
theorem restart_transitions_cases (csm : ConcurrentServiceManager) (b : Behavior) :
    (csm.Restart b).transitions = (csm.Start b).transitions ∨
    (csm.Restart b).transitions = (csm.Stop b).transitions ∨
    (csm.Restart b).transitions =
      (csm.Stop b).transitions ++ ((csm.Stop b).s.Start b).transitions := by
  unfold ConcurrentServiceManager.Restart
  by_cases h : csm.state = ServiceState.stopped
  · left
    simp [h]
  · rcases hres : (csm.Stop b).res with _ | e
    · right; right
      simp [h, hres]
    · right; left
      simp [h, hres]

/-- C2 counterexample: on a fresh controller whose run function returns
normally, `Start` performs the direct transition `Running→Stopped` — a
transition outside the specification's legal relation (which requires
passing through `Stopping`). -/
theorem running_to_stopped_escapes_spec_relation :
    (ServiceState.running, ServiceState.stopped) ∈
      ((NewConcurrentServiceManager "svc").Start okB).transitions ∧
    specLegal ServiceState.running ServiceState.stopped = false := by
  decide

/-- C2 amended: every state transition performed by `Start`, `Stop` or
`Restart`, from any manager state and under any callback behaviour, lies
in the code's transition relation `codeTransitions`: the spec's chain plus
the direct `Running→Stopped` self-transition on normal run return, Stop's
CAS from `Starting` and from `Error` into `Stopping`, and the
failure-path transitions into `Error`. -/
theorem transitions_follow_code_relation (csm : ConcurrentServiceManager) (b : Behavior) :
    (∀ p ∈ (csm.Start b).transitions, p ∈ codeTransitions) ∧
    (∀ p ∈ (csm.Stop b).transitions, p ∈ codeTransitions) ∧
    (∀ p ∈ (csm.Restart b).transitions, p ∈ codeTransitions) := by
  refine ⟨start_transitions_sub csm b, stop_transitions_sub csm b, ?_⟩
  intro p hp
  rcases restart_transitions_cases csm b with h | h | h
  · exact start_transitions_sub csm b p (h ▸ hp)
  · exact stop_transitions_sub csm b p (h ▸ hp)
  · rw [h] at hp
    rcases List.mem_append.1 hp with h2 | h2
    · exact stop_transitions_sub csm b p h2
    · exact start_transitions_sub (csm.Stop b).s b p h2

/-- Witness for `transitions_follow_code_relation`: the first transition of
a concrete `Start` is in the code relation. -/
theorem transitions_follow_code_relation_witness :
    (ServiceState.stopped, ServiceState.starting) ∈ codeTransitions :=
  (transitions_follow_code_relation (NewConcurrentServiceManager "svc") okB).1
    (ServiceState.stopped, ServiceState.starting) (by decide)

/-- C4 counterexample: a successful `ConcurrentServiceManager.Stop` (here
from the `Error` state reached by a failing run) performs its cleanup in
the order context-cancel, channel-close, user stop callback, state to
`Stopped` — not the specified user-callback-first order. -/
theorem stop_runs_cancel_before_callbacks :
    (((NewConcurrentServiceManager "svc").Start errB).s.Stop okB).res = none ∧
    (((NewConcurrentServiceManager "svc").Start errB).s.Stop okB).cleanup =
      [CleanupEv.cancelCtx, CleanupEv.closeChan, CleanupEv.userStopCb,
        CleanupEv.markStopped] ∧
    specStopOrder (((NewConcurrentServiceManager "svc").Start errB).s.Stop okB).cleanup
      = false := by
  decide

/-- C4 amended: for every successful `ConcurrentServiceManager.Stop` the
cleanup order is: cancel the owned context (when not already cancelled),
then close the stop channel (when not already closed), then run the user
stop callback, and finally set the state to `Stopped`; in `sManager.Stop`
the user stop callbacks do run first, followed by the idempotent close of
the exit channel and the clearing of the running flag. -/
theorem stop_cleanup_order (csm : ConcurrentServiceManager) (b : Behavior) (sm : sManager) :
    (csm.state = ServiceState.starting ∨ csm.state = ServiceState.running ∨
        csm.state = ServiceState.error → b.stopRes = none →
      (csm.Stop b).res = none ∧
      CleanupEv.userStopCb ∈ (csm.Stop b).cleanup ∧
      (csm.Stop b).cleanup.getLast? = some CleanupEv.markStopped ∧
      (csm.ctxCancelled = false →
        (csm.Stop b).cleanup.indexOf CleanupEv.cancelCtx <
          (csm.Stop b).cleanup.indexOf CleanupEv.userStopCb) ∧
      (csm.stopChanClosed = false →
        (csm.Stop b).cleanup.indexOf CleanupEv.closeChan <
          (csm.Stop b).cleanup.indexOf CleanupEv.userStopCb)) ∧
    (sm.stopExecuted = false → sm.running = true →
      (sm.Stop).2.indexOf SMEvent.userCbs = 0 ∧
      (sm.exitChanClosed = false →
        (sm.Stop).2.indexOf SMEvent.userCbs < (sm.Stop).2.indexOf SMEvent.closeExit ∧
        (sm.Stop).2.indexOf SMEvent.closeExit < (sm.Stop).2.indexOf SMEvent.clearRunning)) := by
  obtain ⟨bs, ba, br, bb, bsr, baf⟩ := b
  obtain ⟨r, se, ec⟩ := sm
  constructor
  · intro hst hres
    rcases hst with h | h | h <;>
      cases hcc : csm.ctxCancelled <;> cases hsc : csm.stopChanClosed <;>
      cases bb <;> cases baf <;>
      simp_all [ConcurrentServiceManager.Stop, List.indexOf, List.findIdx,
        List.findIdx.go] <;> decide
  · intro h1 h2
    subst h1; subst h2
    cases ec <;>
      simp [sManager.Stop, List.indexOf, List.findIdx, List.findIdx.go]
    decide

/-- Witness for `stop_cleanup_order` at a concrete stop from `Running`. -/
theorem stop_cleanup_order_witness :
    CleanupEv.userStopCb ∈
      ((ConcurrentServiceManager.mk "w" ServiceState.running 1 0 false false none).Stop okB).cleanup :=
  ((stop_cleanup_order
      (ConcurrentServiceManager.mk "w" ServiceState.running 1 0 false false none) okB
      freshCycle).1 (Or.inr (Or.inl rfl)) rfl).2.1

/-- Per-invocation facts used for the once-per-cycle counting arguments:
each stop-side invocation emits at most one flag-guarded callback run and
at most one channel close; with the flag already set it emits no guarded
run and keeps the flag; if the flag is still unset afterwards no guarded
run happened; and symmetrically for the exit channel. -/
theorem invApply_facts (i : StopInv) (sm : sManager) :
    ((invApply i sm).2.count SMEvent.userCbs ≤ 1) ∧
    (sm.stopExecuted = true →
      (invApply i sm).2.count SMEvent.userCbs = 0 ∧
      (invApply i sm).1.stopExecuted = true) ∧
    ((invApply i sm).1.stopExecuted = false →
      (invApply i sm).2.count SMEvent.userCbs = 0) ∧
    ((invApply i sm).2.count SMEvent.closeExit ≤ 1) ∧
    (sm.exitChanClosed = true →
      (invApply i sm).2.count SMEvent.closeExit = 0 ∧
      (invApply i sm).1.exitChanClosed = true) ∧
    ((invApply i sm).1.exitChanClosed = false →
      (invApply i sm).2.count SMEvent.closeExit = 0) := by
  obtain ⟨r, se, ec⟩ := sm
  cases i <;> cases r <;> cases se <;> cases ec <;> decide

/-- Over any sequence of stop-side invocations, the flag-guarded callback
path runs at most once, and the exit channel is closed at most once. -/
theorem runInvs_counts (l : List StopInv) (sm : sManager) :
    ((runInvs l sm).2.count SMEvent.userCbs ≤ 1 ∧
      (sm.stopExecuted = true → (runInvs l sm).2.count SMEvent.userCbs = 0)) ∧
    ((runInvs l sm).2.count SMEvent.closeExit ≤ 1 ∧
      (sm.exitChanClosed = true → (runInvs l sm).2.count SMEvent.closeExit = 0)) := by
  induction l generalizing sm with
  | nil => simp [runInvs]
  | cons i l ih =>
    obtain ⟨h1, h2, h3, h4, h5, h6⟩ := invApply_facts i sm
    have hshape : (runInvs (i :: l) sm).2 =
        (invApply i sm).2 ++ (runInvs l (invApply i sm).1).2 := rfl
    refine ⟨⟨?_, ?_⟩, ?_, ?_⟩
    · rw [hshape, List.count_append]
      cases hafter : (invApply i sm).1.stopExecuted
      · have hh := h3 hafter
        have hrest := (ih (invApply i sm).1).1.1
        omega
      · have hrest := (ih (invApply i sm).1).1.2 hafter
        omega
    · intro hse
      obtain ⟨hh, ha⟩ := h2 hse
      have hrest := (ih (invApply i sm).1).1.2 ha
      rw [hshape, List.count_append]
      omega
    · rw [hshape, List.count_append]
      cases hafter : (invApply i sm).1.exitChanClosed
      · have hh := h6 hafter
        have hrest := (ih (invApply i sm).1).2.1
        omega
      · have hrest := (ih (invApply i sm).1).2.2 hafter
        omega
    · intro hec
      obtain ⟨hh, ha⟩ := h5 hec
      have hrest := (ih (invApply i sm).1).2.2 ha
      rw [hshape, List.count_append]
      omega

/-- C1 counterexample: within one cycle (running, flag unset), an explicit
`Stop` followed by the escalator's first-timeout branch executes the user
stop callbacks twice — the escalator's branch for an already-set flag calls
them directly — so they do not run exactly once per cycle. -/
theorem stop_callbacks_run_twice :
    cbRuns (runInvs [StopInv.stopCall, StopInv.escalT1] freshCycle).2 = 2 := by
  decide

/-- C1 amended: across any sequence of stop-side invocations in one cycle,
the flag-guarded `Stop` body runs the user stop callbacks at most once —
the first invocation that sets `stopExecuted` while running performs the
run, every later `Stop` call observes the flag and returns immediately with
no events — but the signal handler and the escalator may additionally run
the callbacks directly once the flag is set. -/
theorem stop_callbacks_once_via_flag (l : List StopInv) (sm : sManager) :
    (runInvs l sm).2.count SMEvent.userCbs ≤ 1 ∧
    (sm.stopExecuted = true → (runInvs l sm).2.count SMEvent.userCbs = 0) ∧
    (sm.stopExecuted = true → invApply StopInv.stopCall sm = (sm, [])) := by
  refine ⟨(runInvs_counts l sm).1.1, (runInvs_counts l sm).1.2, ?_⟩
  intro h
  simp [invApply, sManager.Stop, h]

/-- Witness for `stop_callbacks_once_via_flag` on a cycle whose flag is
already set. -/
theorem stop_callbacks_once_via_flag_witness :
    (runInvs [StopInv.stopCall, StopInv.sigHandler]
        (sManager.mk false true true)).2.count SMEvent.userCbs = 0 :=
  (stop_callbacks_once_via_flag [StopInv.stopCall, StopInv.sigHandler]
    (sManager.mk false true true)).2.1 rfl

/-- The `Start` operation never touches the owned context or the stop
channel and performs no cleanup action. -/
theorem start_chan_ctx_facts (csm : ConcurrentServiceManager) (b : Behavior) :
    (csm.Start b).s.stopChanClosed = csm.stopChanClosed ∧
    (csm.Start b).s.ctxCancelled = csm.ctxCancelled ∧
    (csm.Start b).cleanup = [] := by
  obtain ⟨bs, ba, br, bb, bsr, baf⟩ := b
  by_cases h : csm.state = ServiceState.stopped <;>
    cases bs <;> cases ba <;> cases br <;> simp [ConcurrentServiceManager.Start, h]

/-- The once-guard facts for `Stop`: at most one context cancellation and
one channel close per call, a no-op when the guard was already used, and
the guarded flags are never reset. -/
theorem stop_chan_ctx_facts (csm : ConcurrentServiceManager) (b : Behavior) :
    ((csm.Stop b).cleanup.count CleanupEv.closeChan ≤ 1) ∧
    (csm.stopChanClosed = true → (csm.Stop b).cleanup.count CleanupEv.closeChan = 0 ∧
      (csm.Stop b).s.stopChanClosed = true) ∧
    ((csm.Stop b).s.stopChanClosed = false →
      (csm.Stop b).cleanup.count CleanupEv.closeChan = 0) ∧
    ((csm.Stop b).cleanup.count CleanupEv.cancelCtx ≤ 1) ∧
    (csm.ctxCancelled = true → (csm.Stop b).cleanup.count CleanupEv.cancelCtx = 0 ∧
      (csm.Stop b).s.ctxCancelled = true) ∧
    ((csm.Stop b).s.ctxCancelled = false →
      (csm.Stop b).cleanup.count CleanupEv.cancelCtx = 0) := by
  obtain ⟨bs, ba, br, bb, bsr, baf⟩ := b
  cases h : csm.state <;> cases hcc : csm.ctxCancelled <;>
    cases hsc : csm.stopChanClosed <;> cases bb <;> cases bsr <;> cases baf <;>
    simp [ConcurrentServiceManager.Stop, h, hcc, hsc]

/-- The cleanup actions and post-state of `Restart` decompose into those of
its phases. -/
theorem restart_decomp (csm : ConcurrentServiceManager) (b : Behavior) :
    ((csm.Restart b).cleanup = (csm.Start b).cleanup ∧
      (csm.Restart b).s = (csm.Start b).s) ∨
    ((csm.Restart b).cleanup = (csm.Stop b).cleanup ∧
      (csm.Restart b).s = (csm.Stop b).s) ∨
    ((csm.Restart b).cleanup = (csm.Stop b).cleanup ++ ((csm.Stop b).s.Start b).cleanup ∧
      (csm.Restart b).s = ((csm.Stop b).s.Start b).s) := by
  unfold ConcurrentServiceManager.Restart
  by_cases h : csm.state = ServiceState.stopped
  · left
    simp [h]
  · rcases hres : (csm.Stop b).res with _ | e
    · right; right
      simp [h, hres]
    · right; left
      simp [h, hres]

/-- Once-guard facts for a single operation of the manager. -/
theorem csmStep_facts (op : CsmOp) (csm : ConcurrentServiceManager) :
    ((csmStep op csm).2.count CleanupEv.closeChan ≤ 1) ∧
    (csm.stopChanClosed = true → (csmStep op csm).2.count CleanupEv.closeChan = 0 ∧
      (csmStep op csm).1.stopChanClosed = true) ∧
    ((csmStep op csm).1.stopChanClosed = false →
      (csmStep op csm).2.count CleanupEv.closeChan = 0) ∧
    ((csmStep op csm).2.count CleanupEv.cancelCtx ≤ 1) ∧
    (csm.ctxCancelled = true → (csmStep op csm).2.count CleanupEv.cancelCtx = 0 ∧
      (csmStep op csm).1.ctxCancelled = true) ∧
    ((csmStep op csm).1.ctxCancelled = false →
      (csmStep op csm).2.count CleanupEv.cancelCtx = 0) := by
  cases op with
  | opStart b =>
    obtain ⟨hc, hx, hn⟩ := start_chan_ctx_facts csm b
    simp [csmStep, hn, hc, hx]
  | opStop b =>
    exact stop_chan_ctx_facts csm b
  | opRestart b =>
    obtain ⟨s1, s2, s3, s4, s5, s6⟩ := stop_chan_ctx_facts csm b
    have hst := start_chan_ctx_facts (csm.Stop b).s b
    rcases restart_decomp csm b with ⟨he, hs⟩ | ⟨he, hs⟩ | ⟨he, hs⟩
    · obtain ⟨hc, hx, hn⟩ := start_chan_ctx_facts csm b
      simp [csmStep, he, hs, hn, hc, hx]
    · simp only [csmStep, he, hs]
      exact ⟨s1, s2, s3, s4, s5, s6⟩
    · simp only [csmStep, he, hs, hst.2.2, List.append_nil, hst.1, hst.2.1]
      exact ⟨s1, s2, s3, s4, s5, s6⟩

/-- Over any operation sequence on one manager instance, the owned context
is cancelled at most once and the stop channel closed at most once, and
once cancelled or closed they stay so. -/
theorem csmRun_counts (ops : List CsmOp) (csm : ConcurrentServiceManager) :
    ((csmRun ops csm).2.count CleanupEv.closeChan ≤ 1 ∧
      (csm.stopChanClosed = true → (csmRun ops csm).2.count CleanupEv.closeChan = 0 ∧
        (csmRun ops csm).1.stopChanClosed = true)) ∧
    ((csmRun ops csm).2.count CleanupEv.cancelCtx ≤ 1 ∧
      (csm.ctxCancelled = true → (csmRun ops csm).2.count CleanupEv.cancelCtx = 0 ∧
        (csmRun ops csm).1.ctxCancelled = true)) := by
  induction ops generalizing csm with
  | nil => simp [csmRun]
  | cons op ops ih =>
    obtain ⟨h1, h2, h3, h4, h5, h6⟩ := csmStep_facts op csm
    have hshape : (csmRun (op :: ops) csm).2 =
        (csmStep op csm).2 ++ (csmRun ops (csmStep op csm).1).2 := rfl
    have hshape1 : (csmRun (op :: ops) csm).1 = (csmRun ops (csmStep op csm).1).1 := rfl
    refine ⟨⟨?_, ?_⟩, ?_, ?_⟩
    · rw [hshape, List.count_append]
      cases hafter : (csmStep op csm).1.stopChanClosed
      · have hh := h3 hafter
        have hrest := (ih (csmStep op csm).1).1.1
        omega
      · have hrest := ((ih (csmStep op csm).1).1.2 hafter).1
        omega
    · intro hcc
      obtain ⟨hh, ha⟩ := h2 hcc
      obtain ⟨hrest, hst⟩ := (ih (csmStep op csm).1).1.2 ha
      rw [hshape, List.count_append, hshape1]
      exact ⟨by omega, hst⟩
    · rw [hshape, List.count_append]
      cases hafter : (csmStep op csm).1.ctxCancelled
      · have hh := h6 hafter
        have hrest := (ih (csmStep op csm).1).2.1
        omega
      · have hrest := ((ih (csmStep op csm).1).2.2 hafter).1
        omega
    · intro hcc
      obtain ⟨hh, ha⟩ := h5 hcc
      obtain ⟨hrest, hst⟩ := (ih (csmStep op csm).1).2.2 ha
      rw [hshape, List.count_append, hshape1]
      exact ⟨by omega, hst⟩

/-- C6 counterexample: after a full cycle of `ConcurrentServiceManager`
(`Start` with a failing run, then a successful `Stop` that closes the stop
channel), a second `Start` begins a new cycle — the start counter reaches 2
— but the stop channel is still the closed one: it is never re-created. -/
theorem stop_chan_not_recreated_on_new_cycle :
    (((NewConcurrentServiceManager "svc").Start errB).s.Stop okB).s.state
        = ServiceState.stopped ∧
    (((NewConcurrentServiceManager "svc").Start errB).s.Stop okB).s.stopChanClosed
        = true ∧
    ((((NewConcurrentServiceManager "svc").Start errB).s.Stop okB).s.Start okB).s.startCount
        = 2 ∧
    ((((NewConcurrentServiceManager "svc").Start errB).s.Stop okB).s.Start okB).s.stopChanClosed
        = true := by
  decide

/-- C6 amended: for `sManager`, `Start` on a non-running manager leaves the
exit channel open (re-creating it under the mutex when the previous cycle
closed it), and over any sequence of stop-side invocations the channel is
closed at most once, later closers no-oping; for
`ConcurrentServiceManager`, `Start` never touches the stop channel (no
re-creation), and over any operation sequence the channel is closed at most
once in the whole instance lifetime and stays closed. -/
theorem exit_chan_close_semantics (l : List StopInv) (sm : sManager)
    (csm : ConcurrentServiceManager) (b : Behavior) (ops : List CsmOp) :
    (sm.running = false →
      (sManager.Start sm).1 = true ∧ (sManager.Start sm).2.exitChanClosed = false) ∧
    ((runInvs l sm).2.count SMEvent.closeExit ≤ 1) ∧
    (sm.exitChanClosed = true → (runInvs l sm).2.count SMEvent.closeExit = 0) ∧
    ((csm.Start b).s.stopChanClosed = csm.stopChanClosed) ∧
    ((csmRun ops csm).2.count CleanupEv.closeChan ≤ 1) ∧
    (csm.stopChanClosed = true → (csmRun ops csm).2.count CleanupEv.closeChan = 0 ∧
      (csmRun ops csm).1.stopChanClosed = true) := by
  refine ⟨?_, (runInvs_counts l sm).2.1, (runInvs_counts l sm).2.2,
    (start_chan_ctx_facts csm b).1, (csmRun_counts ops csm).1.1,
    (csmRun_counts ops csm).1.2⟩
  intro h
  simp [sManager.Start, h]

/-- Witness for `exit_chan_close_semantics` at a non-running manager whose
previous cycle closed the channel. -/
theorem exit_chan_close_semantics_witness :
    (sManager.Start (sManager.mk false true true)).1 = true ∧
    (sManager.Start (sManager.mk false true true)).2.exitChanClosed = false :=
  (exit_chan_close_semantics [] (sManager.mk false true true)
    (NewConcurrentServiceManager "svc") okB []).1 rfl

/-- C10: the owned context and stop channel of a `ConcurrentServiceManager`
exist from construction and are never replaced: `Start` leaves both
untouched, a `Stop` that proceeds cancels and closes both, over any
operation sequence the cancellation happens at most once (the one-shot
guards) and once cancelled or closed they stay so forever, and a `Start`
performed after the context was cancelled hands the run function a context
derived from the cancelled parent — already done. -/
theorem ctx_chan_created_once (csm : ConcurrentServiceManager) (b : Behavior)
    (ops : List CsmOp) :
    ((csm.Start b).s.ctxCancelled = csm.ctxCancelled ∧
      (csm.Start b).s.stopChanClosed = csm.stopChanClosed) ∧
    (csm.state = ServiceState.starting ∨ csm.state = ServiceState.running ∨
        csm.state = ServiceState.error →
      (csm.Stop b).s.ctxCancelled = true ∧ (csm.Stop b).s.stopChanClosed = true) ∧
    (csm.ctxCancelled = true → (csmRun ops csm).1.ctxCancelled = true ∧
      (csmRun ops csm).2.count CleanupEv.cancelCtx = 0) ∧
    (csm.stopChanClosed = true → (csmRun ops csm).1.stopChanClosed = true) ∧
    ((csmRun ops csm).2.count CleanupEv.cancelCtx ≤ 1) ∧
    (csm.ctxCancelled = true → csm.state = ServiceState.stopped →
      b.beforeStart = none → b.afterStart = none →
      (csm.Start b).runnerCtxDone = some true) := by
  refine ⟨⟨(start_chan_ctx_facts csm b).2.1, (start_chan_ctx_facts csm b).1⟩,
    ?_, ?_, ?_, (csmRun_counts ops csm).2.1, ?_⟩
  · intro h
    obtain ⟨bs, ba, br, bb, bsr, baf⟩ := b
    rcases h with h | h | h <;> cases bb <;> cases bsr <;> cases baf <;>
      simp [ConcurrentServiceManager.Stop, h]
  · intro h
    exact ⟨((csmRun_counts ops csm).2.2 h).2, ((csmRun_counts ops csm).2.2 h).1⟩
  · intro h
    exact ((csmRun_counts ops csm).1.2 h).2
  · intro h hs h1 h2
    rcases hr : b.run <;>
      simp [ConcurrentServiceManager.Start, hs, h, h1, h2, hr]

/-- Witness for `ctx_chan_created_once`: a `Start` after the first cycle
cancelled the context passes an already-done context to the runner. -/
theorem ctx_chan_created_once_witness :
    ((ConcurrentServiceManager.mk "w" ServiceState.stopped 1 1 true true
        none).Start okB).runnerCtxDone = some true :=
  (ctx_chan_created_once
    (ConcurrentServiceManager.mk "w" ServiceState.stopped 1 1 true true none)
    okB []).2.2.2.2.2 rfl rfl rfl rfl

/-- Completion by an earlier deadline implies completion by a later one. -/
theorem doneBy_mono (wd : Option Nat) (a c : Nat) (h : doneBy wd a = true)
    (hac : a ≤ c) : doneBy wd c = true := by
  cases wd with
  | none => simp [doneBy] at h
  | some t =>
    simp [doneBy] at h ⊢
    omega

/-- C3 counterexample, refuting two parts of the claim at concrete inputs
with a worker that never completes.  First, entering the escalator after an
explicit `Stop` already ran the user stop callbacks in this cycle (flag
set), the first timeout invokes the callbacks again even though they have
already run — not only if they have not yet run.  Second, entering it on a
fresh cycle (flag unset, running), the T1 call to `Stop` deadlocks on the
mutex the escalator holds right after the callbacks: the emitted events end
with the 3000ms callback run and no forced-termination mark ever happens,
so the escalator does not force-mark after the full `T1+T2` budget. -/
theorem escalator_reinvokes_after_stop :
    ((sManager.Stop freshCycle).1).stopExecuted = true ∧
    (3000, SMEvent.directCbs) ∈
      (((sManager.Stop freshCycle).1).waitForServiceCompletion true none).2.1 ∧
    (freshCycle.waitForServiceCompletion true none).2.2 = true ∧
    (freshCycle.waitForServiceCompletion true none).2.1 =
      [(0, SMEvent.closeExit), (3000, SMEvent.warn), (3000, SMEvent.userCbs)] := by
  decide

/-- C3 amended: the escalator waits up to `T1` = 3000ms for worker
completion and performs nothing beyond the initial channel close when the
worker completes in time.  At `T1`, if the stop callbacks have not yet run
it warns and invokes `Stop`; when the manager is running this executes the
callbacks and then deadlocks forever on the escalator-held mutex — the
manager stays marked running and no force-mark is ever emitted in that
branch.  If the callbacks have already run it invokes them again directly
without deadlock.  In the surviving branches (flag already set, or `Stop`'s
early return because the manager is not running) it waits up to `T2` =
2000ms more and force-marks the manager stopped exactly at `T1+T2` =
5000ms — never earlier — precisely when the worker has not completed
within the full budget. -/
theorem escalator_staged (sm : sManager) (wd : Option Nat) :
    (doneBy wd 3000 = true →
      (sm.waitForServiceCompletion true wd).2.2 = false ∧
      ∀ t e, (t, e) ∈ (sm.waitForServiceCompletion true wd).2.1 →
        e = SMEvent.closeExit) ∧
    (doneBy wd 3000 = false → sm.stopExecuted = false → sm.running = true →
      (3000, SMEvent.warn) ∈ (sm.waitForServiceCompletion true wd).2.1 ∧
      (3000, SMEvent.userCbs) ∈ (sm.waitForServiceCompletion true wd).2.1 ∧
      (sm.waitForServiceCompletion true wd).2.2 = true ∧
      (sm.waitForServiceCompletion true wd).1.running = true ∧
      ∀ t, (t, SMEvent.forceWarn) ∉ (sm.waitForServiceCompletion true wd).2.1) ∧
    (doneBy wd 3000 = false → sm.stopExecuted = true →
      (3000, SMEvent.directCbs) ∈ (sm.waitForServiceCompletion true wd).2.1 ∧
      (sm.waitForServiceCompletion true wd).2.2 = false) ∧
    ((5000, SMEvent.forceWarn) ∈ (sm.waitForServiceCompletion true wd).2.1 ↔
      (doneBy wd 5000 = false ∧
        (sm.stopExecuted = true ∨ sm.running = false))) ∧
    (∀ t, (t, SMEvent.forceWarn) ∈ (sm.waitForServiceCompletion true wd).2.1 →
      t = 5000) ∧
    (doneBy wd 5000 = false → sm.stopExecuted = true ∨ sm.running = false →
      (sm.waitForServiceCompletion true wd).1.running = false ∧
      (sm.waitForServiceCompletion true wd).1.stopExecuted = true) := by
  obtain ⟨r, se, ec⟩ := sm
  by_cases h3 : doneBy wd 3000 = true
  · have h5 := doneBy_mono wd 3000 5000 h3 (by omega)
    cases r <;> cases se <;> cases ec <;>
      simp [sManager.waitForServiceCompletion, h3, h5]
  · by_cases h5 : doneBy wd 5000 = true
    · cases r <;> cases se <;> cases ec <;>
        simp [sManager.waitForServiceCompletion, h3, h5]
    · cases r <;> cases se <;> cases ec <;>
        simp [sManager.waitForServiceCompletion, h3, h5]

/-- Witness for `escalator_staged`: entered after an explicit `Stop` set
the flag, with a worker that never completes, the forced-termination
warning is emitted at exactly 5000ms. -/
theorem escalator_staged_witness :
    (5000, SMEvent.forceWarn) ∈
      (((sManager.Stop freshCycle).1).waitForServiceCompletion true none).2.1 :=
  ((escalator_staged (sManager.Stop freshCycle).1 none).2.2.2.1).mpr ⟨rfl, Or.inl rfl⟩

/-- The dependency checks collect no error exactly when every entry is
non-empty. -/
theorem depErrs_nil_iff (l : List String) (i : Nat) :
    depErrs l i = [] ↔ ∀ d ∈ l, d ≠ "" := by
  induction l generalizing i with
  | nil => simp [depErrs]
  | cons d rest ih =>
    by_cases h : d = "" <;> simp [depErrs, h, ih]

/-- The environment-variable checks collect no error exactly when every key
and every value is non-empty. -/
theorem envErrs_nil_iff (l : List (String × String)) :
    envErrs l = [] ↔ ∀ p ∈ l, p.1 ≠ "" ∧ p.2 ≠ "" := by
  induction l with
  | nil => simp [envErrs]
  | cons p rest ih =>
    obtain ⟨k, v⟩ := p
    by_cases hk : k = "" <;> by_cases hv : v = "" <;> simp [envErrs, hk, hv, ih]

/-- Every empty dependency entry contributes its indexed error. -/
theorem depErrs_mem (l : List String) (i j : Nat) (h : l[j]? = some "") :
    ConfigErr.depEmpty (i + j) ∈ depErrs l i := by
  induction l generalizing i j with
  | nil => simp at h
  | cons d rest ih =>
    cases j with
    | zero =>
      simp at h
      simp [depErrs, h]
    | succ j =>
      simp at h
      have hrec := ih (i + 1) j h
      have harith : i + (j + 1) = (i + 1) + j := by omega
      rw [harith]
      simp [depErrs]
      right
      exact hrec

/-- Every empty environment-variable key contributes the key error. -/
theorem envErrs_mem_key (l : List (String × String)) (v : String)
    (h : ("", v) ∈ l) : ConfigErr.envKeyEmpty ∈ envErrs l := by
  induction l with
  | nil => simp at h
  | cons p rest ih =>
    obtain ⟨k, w⟩ := p
    rcases List.mem_cons.1 h with h1 | h1
    · obtain ⟨hk, hv⟩ := Prod.mk.injEq .. ▸ h1.symm
      simp [envErrs, hk.symm]
    · simp [envErrs]
      right
      exact ih h1

/-- Every empty environment-variable value contributes the value error for
its key. -/
theorem envErrs_mem_val (l : List (String × String)) (k : String)
    (h : (k, "") ∈ l) : ConfigErr.envValEmpty k ∈ envErrs l := by
  induction l with
  | nil => simp at h
  | cons p rest ih =>
    obtain ⟨q, w⟩ := p
    rcases List.mem_cons.1 h with h1 | h1
    · obtain ⟨hk, hv⟩ := Prod.mk.injEq .. ▸ h1.symm
      subst hk
      simp [envErrs, hv.symm]
    · simp [envErrs]
      right
      exact ih h1

/-- The full error list `Validate` collects (the `errs` slice of the
source, as a standalone definition). -/
def validationErrs (sc : ServiceConfig) : List ConfigErr :=
  (if sc.Name = "" then [ConfigErr.nameEmpty] else []) ++
    (if sc.Name.length < 3 || sc.Name.length > 50 then [ConfigErr.nameLen] else []) ++
    (if sc.DisplayName = "" then [ConfigErr.displayEmpty] else []) ++
    (if sc.DisplayName.length > 100 then [ConfigErr.displayLen] else []) ++
    (if sc.Description.length > 500 then [ConfigErr.descLen] else []) ++
    depErrs sc.Dependencies 0 ++
    envErrs sc.EnvVars

/-- `Validate` returns `none` exactly when it collected no error. -/
theorem validate_none_iff_errs (sc : ServiceConfig) :
    sc.Validate = none ↔ validationErrs sc = [] := by
  have : sc.Validate =
      if validationErrs sc = [] then none else some (validationErrs sc) := rfl
  rw [this]
  split <;> simp_all

/-- When `Validate` returns an aggregated error, its list is exactly the
collected error list. -/
theorem validate_some_eq (sc : ServiceConfig) (es : List ConfigErr)
    (h : sc.Validate = some es) : es = validationErrs sc := by
  have hv : sc.Validate =
      if validationErrs sc = [] then none else some (validationErrs sc) := rfl
  rw [hv] at h
  split at h
  · exact absurd h (by simp)
  · exact (Option.some.injEq .. ▸ h).symm

/-- The collected error list is empty exactly when every field constraint
holds. -/
theorem validationErrs_nil_iff (sc : ServiceConfig) :
    validationErrs sc = [] ↔
      (sc.Name ≠ "" ∧ 3 ≤ sc.Name.length ∧ sc.Name.length ≤ 50 ∧
        sc.DisplayName ≠ "" ∧ sc.DisplayName.length ≤ 100 ∧
        sc.Description.length ≤ 500 ∧
        (∀ d ∈ sc.Dependencies, d ≠ "") ∧
        (∀ p ∈ sc.EnvVars, p.1 ≠ "" ∧ p.2 ≠ "")) := by
  simp [validationErrs, List.append_eq_nil, depErrs_nil_iff, envErrs_nil_iff,
    Nat.not_lt, and_assoc]

/-- C9: `ServiceConfig.Validate` is eager and aggregated — it returns `nil`
exactly when every field constraint holds (name non-empty and within 3..50,
display name non-empty and at most 100, description at most 500, every
dependency entry non-empty, every environment key and value non-empty), and
otherwise the aggregated error carries an entry for every violated field
rather than only the first one. -/
theorem validate_aggregates (sc : ServiceConfig) :
    (sc.Validate = none ↔
      (sc.Name ≠ "" ∧ 3 ≤ sc.Name.length ∧ sc.Name.length ≤ 50 ∧
        sc.DisplayName ≠ "" ∧ sc.DisplayName.length ≤ 100 ∧
        sc.Description.length ≤ 500 ∧
        (∀ d ∈ sc.Dependencies, d ≠ "") ∧
        (∀ p ∈ sc.EnvVars, p.1 ≠ "" ∧ p.2 ≠ ""))) ∧
    (∀ es, sc.Validate = some es →
      (sc.Name = "" → ConfigErr.nameEmpty ∈ es) ∧
      (sc.Name.length < 3 ∨ 50 < sc.Name.length → ConfigErr.nameLen ∈ es) ∧
      (sc.DisplayName = "" → ConfigErr.displayEmpty ∈ es) ∧
      (100 < sc.DisplayName.length → ConfigErr.displayLen ∈ es) ∧
      (500 < sc.Description.length → ConfigErr.descLen ∈ es) ∧
      (∀ j, sc.Dependencies[j]? = some "" → ConfigErr.depEmpty j ∈ es) ∧
      (∀ v, ("", v) ∈ sc.EnvVars → ConfigErr.envKeyEmpty ∈ es) ∧
      (∀ k, (k, "") ∈ sc.EnvVars → ConfigErr.envValEmpty k ∈ es)) := by
  constructor
  · rw [validate_none_iff_errs, validationErrs_nil_iff]
  · intro es h
    have hes : es = validationErrs sc := validate_some_eq sc es h
    subst hes
    refine ⟨?_, ?_, ?_, ?_, ?_, ?_, ?_, ?_⟩
    · intro hn
      simp [validationErrs, List.mem_append, hn]
    · intro hn
      rcases hn with hn | hn <;> simp [validationErrs, List.mem_append, hn]
    · intro hn
      simp [validationErrs, List.mem_append, hn]
    · intro hn
      simp [validationErrs, List.mem_append, hn]
    · intro hn
      simp [validationErrs, List.mem_append, hn]
    · intro j hj
      have hd := depErrs_mem sc.Dependencies 0 j hj
      rw [Nat.zero_add] at hd
      exact List.mem_append_left _ (List.mem_append_right _ hd)
    · intro v hv
      exact List.mem_append_right _ (envErrs_mem_key sc.EnvVars v hv)
    · intro k hk
      exact List.mem_append_right _ (envErrs_mem_val sc.EnvVars k hk)

/-- A configuration violating several constraints at once. -/
def badConfig : ServiceConfig :=
  { Name := "", DisplayName := "ok", Description := "",
    Dependencies := [""], EnvVars := [("k", "")] }

/-- Witness for `validate_aggregates`: the aggregated error of `badConfig`
carries the entry for its empty environment-variable value alongside the
name errors and the dependency error. -/
theorem validate_aggregates_witness :
    badConfig.Validate = some [ConfigErr.nameEmpty, ConfigErr.nameLen,
      ConfigErr.depEmpty 0, ConfigErr.envValEmpty "k"] ∧
    ConfigErr.envValEmpty "k" ∈ [ConfigErr.nameEmpty, ConfigErr.nameLen,
      ConfigErr.depEmpty 0, ConfigErr.envValEmpty "k"] :=
  ⟨by decide,
    ((validate_aggregates badConfig).2 _ (by decide)).2.2.2.2.2.2.2 "k" (by decide)⟩

end ZCli
